import Mathlib

/-!
Verification of the shed/redsky translation-node core (`src/shed/simple.py`):
extraction nodes (`SimpleFromEventStream`), reconstruction nodes
(`SimpleToEventStream`), the translation graph walker (`walk_to_translation`)
and the alignment/merge node (`AlignEventStreams`).  Python dictionaries are
embedded as association lists over a concrete `Value` type, the stateful node
classes as explicit state-passing functions, and document emissions together
with side-channel calls as explicit traces.
-/

/-- Embedded Python values: strings, numbers, dicts and tuples. -/
inductive Value where
  | str (s : String)
  | nat (n : Nat)
  | dict (d : List (String × Value))
  | tup (l : List Value)

/-- A document body: a Python dict, embedded as an association list. -/
abbrev Body := List (String × Value)

mutual

/-- Python `==` on embedded values (deep structural equality). -/
def vbeq : Value → Value → Bool
  | Value.str a, Value.str b => a == b
  | Value.nat a, Value.nat b => a == b
  | Value.dict a, Value.dict b => abeq a b
  | Value.tup a, Value.tup b => lbeq a b
  | _, _ => false

/-- Python `==` on embedded dicts, entrywise. -/
def abeq : List (String × Value) → List (String × Value) → Bool
  | [], [] => true
  | (k, v) :: r, (k2, v2) :: r2 => k == k2 && vbeq v v2 && abeq r r2
  | _, _ => false

/-- Python `==` on embedded tuples, elementwise. -/
def lbeq : List Value → List Value → Bool
  | [], [] => true
  | v :: r, v2 :: r2 => vbeq v v2 && lbeq r r2
  | _, _ => false

end

/-- Python `d[k]` / `k in d` lookup on an embedded dict. -/
def lookupV : Body → String → Option Value
  | [], _ => none
  | (k, v) :: rest, s => if k = s then some v else lookupV rest s

/-- The wildcard sentinel `ALL` of `shed.simple`. -/
def ALL : String := "--ALL THE DOCS--"

/-- One component of a `data_address`: either a single key or a tuple of keys
(`SimpleFromEventStream.__init__` wraps a bare string into a 1-tuple, so an
address is always a sequence of components). -/
inductive AddrComp where
  | single (s : String)
  | tup (ss : List String)
deriving DecidableEq, Repr

/-- Substring test on character lists, mirroring Python's `needle in hay`
for strings. -/
def subListOf (needle : List Char) : List Char → Bool
  | [] => needle.isEmpty
  | c :: t => needle.isPrefixOf (c :: t) || subListOf needle t

/-- Python string membership `needle in hay`. -/
def strMem (needle hay : String) : Bool := subListOf needle.data hay.data

/-- Outcome of resolving a `data_address` against a document: an emitted
value, a silent drop (Python `return` with no emission), or a raised
exception (Python `KeyError`/`TypeError`). -/
inductive RRes where
  | emitR (v : Value)
  | dropR
  | exnR

/-- Python `tuple(inner[daa] for daa in da)` over a dict `inner`: all keys, or
`none` as soon as one lookup raises `KeyError`. -/
def lookupAll (d : Body) : List String → Option (List Value)
  | [] => some []
  | k :: ks =>
    match lookupV d k with
    | none => none
    | some v =>
      match lookupAll d ks with
      | none => none
      | some vs => some (v :: vs)

/-- The address-resolution loop of `SimpleFromEventStream.update` (lines
175-185 of `simple.py`): walk each component of `data_address` into the
current value.  A missing key at a bare (non-tuple) component is guarded by
`if da in inner` and silently drops; a tuple component indexes unguarded and
raises on a missing key; indexing a non-dict by a string raises `TypeError`.
An empty address yields the whole current value. -/
def resolveComps : List AddrComp → Value → RRes
  | [], v => RRes.emitR v
  | AddrComp.single s :: rest, Value.dict d =>
    match lookupV d s with
    | some w => resolveComps rest w
    | none => RRes.dropR
  | AddrComp.single s :: _, Value.tup vs =>
    if vs.any (fun v => vbeq (Value.str s) v) then RRes.exnR else RRes.dropR
  | AddrComp.single s :: _, Value.str t =>
    if strMem s t then RRes.exnR else RRes.dropR
  | AddrComp.single _ :: _, Value.nat _ => RRes.exnR
  | AddrComp.tup ss :: rest, Value.dict d =>
    match lookupAll d ss with
    | some ws => resolveComps rest (Value.tup ws)
    | none => RRes.exnR
  | AddrComp.tup _ :: _, _ => RRes.exnR

/-- Observable steps of one `SimpleFromEventStream.update` call: a sideband
`emit_start` on a registered dependent, a sideband `emit_stop`, a downstream
`self.emit` of an extracted value, or a raised exception. -/
inductive FAction where
  | sideStart
  | sideStop
  | emitV (v : Value)
  | raised

namespace SimpleFromEventStream

/-- Constructor configuration of a `SimpleFromEventStream` node; `nsubs` is
the number of reconstruction nodes registered in `self.subs`. -/
structure Config where
  doc_type : String
  data_address : List AddrComp
  event_stream_name : String
  nsubs : Nat

/-- Mutable state of a `SimpleFromEventStream` node. -/
structure NState where
  descriptor_uids : List Value
  start_uid : Option Value

/-- The state of a freshly constructed node. -/
def initState : NState := ⟨[], none⟩

/-- The final emission step of `update` (lines 175-186): resolve the address
against the document body and emit, drop, or raise. -/
def doEmit (cfg : Config) (st : NState) (acts : List FAction) (doc : Body) :
    NState × List FAction :=
  match resolveComps cfg.data_address (Value.dict doc) with
  | RRes.emitR v => (st, acts ++ [FAction.emitV v])
  | RRes.dropR => (st, acts)
  | RRes.exnR => (st, acts ++ [FAction.raised])

/-- The emission filter of `update` (lines 164-173): the document type must
equal `doc_type`, and descriptors must match `event_stream_name` against
`doc.get("name", ALL)`, events must reference an active descriptor
(`doc["descriptor"]` raises when the key is absent), starts and stops always
match. -/
def emitPhase (cfg : Config) (st : NState) (acts : List FAction)
    (name : String) (doc : Body) : NState × List FAction :=
  if name = cfg.doc_type then
    if name = "descriptor" then
      if vbeq (Value.str cfg.event_stream_name) ((lookupV doc "name").getD (Value.str ALL)) then
        doEmit cfg st acts doc
      else (st, acts)
    else if name = "event" then
      match lookupV doc "descriptor" with
      | none => (st, acts ++ [FAction.raised])
      | some d =>
        if st.descriptor_uids.any (fun u => vbeq u d) then doEmit cfg st acts doc
        else (st, acts)
    else if name = "start" ∨ name = "stop" then doEmit cfg st acts doc
    else (st, acts)
  else (st, acts)

/-- The stop branch of `update` (lines 158-162): clear the active descriptor
list, then call `emit_stop` on every registered dependent. -/
def stopPhase (cfg : Config) (st : NState) (acts : List FAction)
    (name : String) (doc : Body) : NState × List FAction :=
  if name = "stop" then
    emitPhase cfg { st with descriptor_uids := [] }
      (acts ++ List.replicate cfg.nsubs FAction.sideStop) name doc
  else emitPhase cfg st acts name doc

/-- The descriptor branch of `update` (lines 153-157): when the stream-name
filter accepts (`event_stream_name == ALL or event_stream_name ==
doc.get("name", "primary")`), append `doc["uid"]` to the active descriptor
list (raising when the `uid` key is absent). -/
def descPhase (cfg : Config) (st : NState) (acts : List FAction)
    (name : String) (doc : Body) : NState × List FAction :=
  if name = "descriptor" ∧
      (cfg.event_stream_name = ALL ∨
        vbeq (Value.str cfg.event_stream_name)
          ((lookupV doc "name").getD (Value.str "primary")) = true) then
    match lookupV doc "uid" with
    | none => (st, acts ++ [FAction.raised])
    | some u =>
      stopPhase cfg { st with descriptor_uids := st.descriptor_uids ++ [u] } acts name doc
  else stopPhase cfg st acts name doc

/-- `SimpleFromEventStream.update`: the start branch (lines 149-152) records
`start_uid = doc["uid"]` and calls `emit_start` on every registered dependent,
then the descriptor, stop and emission phases run in source order. -/
def update (cfg : Config) (st : NState) (x : String × Body) : NState × List FAction :=
  if x.1 = "start" then
    match lookupV x.2 "uid" with
    | none => (st, [FAction.raised])
    | some u =>
      descPhase cfg { st with start_uid := some u }
        (List.replicate cfg.nsubs FAction.sideStart) x.1 x.2
  else descPhase cfg st [] x.1 x.2

end SimpleFromEventStream

namespace SimpleToEventStream

/-- `SimpleToEventStream.emit_stop`: emit a stop document and move the state
machine to `stopped`. -/
def emit_stop (_s : String) : String × List String :=
  ("stopped", ["stop"])

/-- `SimpleToEventStream.emit_start`: when the state is not `stopped` first
run the emergency `emit_stop`, then emit a start document and move to
`started`. -/
def emit_start (s : String) : String × List String :=
  let pre := if s ≠ "stopped" then (emit_stop s).2 else []
  ("started", pre ++ ["start"])

/-- `SimpleToEventStream.update`: on the first payload after a start
(`state == "started"`) emit a descriptor and move to `described`, then always
emit an event. -/
def update (s : String) : String × List String :=
  if s = "started" then ("described", ["descriptor", "event"])
  else (s, ["event"])

end SimpleToEventStream

/-- Effect of one extraction-node action on a downstream reconstruction node
that is registered as its dependent and receives its emissions: sideband
calls drive `emit_start`/`emit_stop`, a downstream emission drives `update`,
and a raised exception reaches no node. -/
def applyAct (s : String) : FAction → String × List String
  | FAction.sideStart => SimpleToEventStream.emit_start s
  | FAction.sideStop => SimpleToEventStream.emit_stop s
  | FAction.emitV _ => SimpleToEventStream.update s
  | FAction.raised => (s, [])

/-- Run a list of extraction-node actions against a reconstruction node,
collecting the emitted document names. -/
def runActs (s : String) : List FAction → String × List String
  | [] => (s, [])
  | a :: rest =>
    let p := applyAct s a
    let q := runActs p.1 rest
    (q.1, p.2 ++ q.2)

/-- One document fed to a principal extraction node wired to a reconstruction
node: run the extraction node's `update`, then deliver its sideband calls and
emissions to the reconstruction node in order. -/
def pipeStep (cfg : SimpleFromEventStream.Config)
    (ps : SimpleFromEventStream.NState × String) (x : String × Body) :
    (SimpleFromEventStream.NState × String) × List String :=
  let r := SimpleFromEventStream.update cfg ps.1 x
  let t := runActs ps.2 r.2
  ((r.1, t.1), t.2)

/-- Feed a list of documents through the extraction → reconstruction
pipeline, collecting the reconstruction node's emitted document names. -/
def runPipe (cfg : SimpleFromEventStream.Config) :
    (SimpleFromEventStream.NState × String) → List (String × Body) →
    (SimpleFromEventStream.NState × String) × List String
  | ps, [] => (ps, [])
  | ps, x :: rest =>
    let p := pipeStep cfg ps x
    let q := runPipe cfg p.1 rest
    (q.1, p.2 ++ q.2)

/-- Initial pipeline state: a fresh extraction node and a reconstruction node
in state `stopped`. -/
def initPipe : SimpleFromEventStream.NState × String :=
  (SimpleFromEventStream.initState, "stopped")

/-- States of the session-shape recognizer for a reconstruction node's
emitted document stream: `S0` outside a session, `S1` inside a session with
no descriptor yet, `S2` immediately after the descriptor (the first event
must follow), `S3` after the first event. -/
inductive RState where
  | S0
  | S1
  | S2
  | S3
deriving DecidableEq

/-- One step of the session-shape recognizer. -/
def delta : RState → String → Option RState
  | RState.S0, "start" => some RState.S1
  | RState.S0, "stop" => some RState.S0
  | RState.S0, "event" => some RState.S0
  | RState.S1, "descriptor" => some RState.S2
  | RState.S1, "stop" => some RState.S0
  | RState.S2, "event" => some RState.S3
  | RState.S3, "event" => some RState.S3
  | RState.S3, "stop" => some RState.S0
  | _, _ => none

/-- Run of the session-shape recognizer over a trace. -/
def deltaStar : RState → List String → Option RState
  | q, [] => some q
  | q, a :: rest =>
    match delta q a with
    | none => none
    | some q2 => deltaStar q2 rest

/-- Recognizer state corresponding to a reconstruction-node machine state. -/
def mapState (s : String) : RState :=
  if s = "started" then RState.S1
  else if s = "described" then RState.S3
  else RState.S0

lemma deltaStar_append (t1 t2 : List String) : ∀ q,
    deltaStar q (t1 ++ t2) = (deltaStar q t1).bind (fun q2 => deltaStar q2 t2) := by
  induction t1 with
  | nil => intro q; simp [deltaStar]
  | cons a r ih =>
    intro q
    rcases h : delta q a with _ | q2 <;> simp [deltaStar, h, ih]

lemma emit_start_delta (s : String) :
    deltaStar (mapState s) (SimpleToEventStream.emit_start s).2
      = some (mapState (SimpleToEventStream.emit_start s).1) := by
  by_cases h1 : s = "stopped"
  · simp [SimpleToEventStream.emit_start, SimpleToEventStream.emit_stop, h1,
      mapState, deltaStar, delta]
  · by_cases h2 : s = "started" <;> by_cases h3 : s = "described" <;>
      simp_all [SimpleToEventStream.emit_start, SimpleToEventStream.emit_stop,
        mapState, deltaStar, delta]

lemma emit_stop_delta (s : String) :
    deltaStar (mapState s) (SimpleToEventStream.emit_stop s).2
      = some (mapState (SimpleToEventStream.emit_stop s).1) := by
  by_cases h2 : s = "started" <;> by_cases h3 : s = "described" <;>
    simp_all [SimpleToEventStream.emit_stop, mapState, deltaStar, delta]

lemma update_delta (s : String) :
    deltaStar (mapState s) (SimpleToEventStream.update s).2
      = some (mapState (SimpleToEventStream.update s).1) := by
  by_cases h2 : s = "started" <;> by_cases h3 : s = "described" <;>
    simp_all [SimpleToEventStream.update, mapState, deltaStar, delta]

lemma applyAct_delta (s : String) (a : FAction) :
    deltaStar (mapState s) (applyAct s a).2 = some (mapState (applyAct s a).1) := by
  cases a with
  | sideStart => exact emit_start_delta s
  | sideStop => exact emit_stop_delta s
  | emitV v => exact update_delta s
  | raised => simp [applyAct, deltaStar]

lemma runActs_delta (acts : List FAction) : ∀ s : String,
    deltaStar (mapState s) (runActs s acts).2 = some (mapState (runActs s acts).1) := by
  induction acts with
  | nil => intro s; simp [runActs, deltaStar]
  | cons a rest ih =>
    intro s
    simp only [runActs]
    rw [deltaStar_append, applyAct_delta]
    simpa using ih (applyAct s a).1

lemma pipeStep_delta (cfg : SimpleFromEventStream.Config)
    (ps : SimpleFromEventStream.NState × String) (x : String × Body) :
    deltaStar (mapState ps.2) (pipeStep cfg ps x).2
      = some (mapState (pipeStep cfg ps x).1.2) :=
  runActs_delta (SimpleFromEventStream.update cfg ps.1 x).2 ps.2

lemma runPipe_delta (cfg : SimpleFromEventStream.Config)
    (docs : List (String × Body)) : ∀ ps,
    deltaStar (mapState ps.2) (runPipe cfg ps docs).2
      = some (mapState (runPipe cfg ps docs).1.2) := by
  induction docs with
  | nil => intro ps; simp [runPipe, deltaStar]
  | cons x rest ih =>
    intro ps
    simp only [runPipe]
    rw [deltaStar_append, pipeStep_delta]
    simpa using ih (pipeStep cfg ps x).1

/-- The emitted documents of the session starting at index `i` of a trace:
everything after the `start` up to (excluding) the next `stop`. -/
def sessionOf (tr : List String) (i : Nat) : List String :=
  (tr.drop (i + 1)).takeWhile (fun a => a != "stop")

/-- The per-session descriptor-count property asserted by claim C1: every
emitted `start` is followed by exactly one `descriptor` before the session's
terminating `stop`, even when the session contains zero payloads. -/
def oneDescriptorEachSession (tr : List String) : Prop :=
  ∀ i : Fin tr.length, tr.get i = "start" → (sessionOf tr i.1).count "descriptor" = 1

/-- A principal extraction node for events at address `("data",)` with one
registered dependent reconstruction node. -/
def cfgC1 : SimpleFromEventStream.Config :=
  { doc_type := "event", data_address := [AddrComp.single "data"],
    event_stream_name := ALL, nsubs := 1 }

/-- A session with zero payloads: a `start` document then a `stop` document. -/
def docsC1 : List (String × Body) :=
  [("start", [("uid", Value.str "u1")]), ("stop", [("uid", Value.str "u2")])]

/-- Claim C1, counterexample: feeding a zero-payload session (a `start`
document then a `stop` document) into the principal source of a
`SimpleToEventStream` makes it emit `["start", "stop"]` with no descriptor at
all — not "exactly one descriptor per session even when the session contains
zero payloads" as claimed. -/
theorem C1_counterexample :
    ¬ oneDescriptorEachSession (runPipe cfgC1 initPipe docsC1).2 := by
  have h : (runPipe cfgC1 initPipe docsC1).2 = ["start", "stop"] := rfl
  rw [h]
  unfold oneDescriptorEachSession
  decide

/-- Claim C1 (amended): for every configuration of the principal extraction
node and every sequence of documents fed into it, the document stream emitted
by the dependent `SimpleToEventStream` is accepted by the session-shape
recognizer: inside every session opened by an emitted `start`, at most one
`descriptor` is emitted, it precedes every `event` of that session, a
`descriptor` appears exactly when the session carries at least one `event`
(so a zero-payload session has none), and a session is closed by exactly one
`stop`; any `event` or `stop` outside a session leaves the recognizer outside
a session. -/
theorem C1_session_wellformedness (cfg : SimpleFromEventStream.Config)
    (docs : List (String × Body)) :
    deltaStar RState.S0 (runPipe cfg initPipe docs).2
      = some (mapState (runPipe cfg initPipe docs).1.2) := by
  have h := runPipe_delta cfg docs initPipe
  simpa [initPipe, mapState] using h

/-- Two principal `start` documents with no intervening `stop`. -/
def docsC2 : List (String × Body) :=
  [("start", [("uid", Value.str "u1")]), ("start", [("uid", Value.str "u2")])]

/-- Claim C2: a call of `emit_start` on a reconstruction node whose state is
not `stopped` first emits a synthesized `stop` and then the new `start` (and
raises no error); consequently two consecutive principal `start` documents
without an intervening `stop` yield the emitted stream
`["start", "stop", "start"]`, with the synthesized `stop` between the two
emitted `start`s. -/
theorem C2_emergency_stop (s : String) (h : s ≠ "stopped") :
    SimpleToEventStream.emit_start s = ("started", ["stop", "start"]) ∧
    (runPipe cfgC1 initPipe docsC2).2 = ["start", "stop", "start"] := by
  constructor
  · simp [SimpleToEventStream.emit_start, SimpleToEventStream.emit_stop, h]
  · rfl

/-- Witness for C2 at the concrete state `"started"`. -/
theorem C2_witness :
    SimpleToEventStream.emit_start "started" = ("started", ["stop", "start"]) :=
  (C2_emergency_stop "started" (by decide)).1

/-- A matching descriptor followed by an event for it, with no start. -/
def docsC10 : List (String × Body) :=
  [("descriptor", [("uid", Value.str "d1")]),
   ("event", [("descriptor", Value.str "d1"), ("data", Value.nat 7)])]

/-- Claim C10: a payload arriving at a `SimpleToEventStream` in state
`stopped` still emits an `event` document, emits no `descriptor`, and leaves
the state `stopped`; concretely, feeding a descriptor and a matching event
(with no start) through the pipeline emits exactly `["event"]` and leaves the
reconstruction node `stopped`. -/
theorem C10_event_while_stopped :
    SimpleToEventStream.update "stopped" = ("stopped", ["event"]) ∧
    (runPipe cfgC1 initPipe docsC10).2 = ["event"] ∧
    (runPipe cfgC1 initPipe docsC10).1.2 = "stopped" :=
  ⟨rfl, rfl, rfl⟩

/-- An extraction node for descriptors with the wildcard stream-name filter. -/
def cfgC3 : SimpleFromEventStream.Config :=
  { doc_type := "descriptor", data_address := [], event_stream_name := ALL,
    nsubs := 0 }

/-- A descriptor whose body carries an explicit stream name. -/
def docC3named : Body := [("uid", Value.str "d1"), ("name", Value.str "primary")]

/-- A descriptor with no name field. -/
def docC3unnamed : Body := [("uid", Value.str "d2")]

/-- Claim C3, evaluation at the failing input: an extraction node configured
with `doc_type="descriptor"` and the wildcard `ALL` filter emits nothing for
a descriptor carrying the explicit name `"primary"` (the emission filter
compares `ALL` against `doc.get("name", ALL)` without the `== ALL` wildcard
disjunct used by the tracking branch), while it does emit for a descriptor
with no name field. -/
theorem C3_wildcard_drops_named_descriptor :
    (SimpleFromEventStream.update cfgC3 SimpleFromEventStream.initState
        ("descriptor", docC3named)).2 = [] ∧
    (SimpleFromEventStream.update cfgC3 SimpleFromEventStream.initState
        ("descriptor", docC3unnamed)).2
      = [FAction.emitV (Value.dict docC3unnamed)] :=
  ⟨rfl, rfl⟩

/-- Is an action a sideband notification (`emit_start`/`emit_stop` on a
registered dependent)? -/
def FAction.isSide : FAction → Bool
  | FAction.sideStart => true
  | FAction.sideStop => true
  | _ => false

/-- Is an action the node's own downstream emission of a resolved value? -/
def FAction.isEmission : FAction → Bool
  | FAction.emitV _ => true
  | _ => false

lemma doEmit_decomp (cfg : SimpleFromEventStream.Config)
    (st : SimpleFromEventStream.NState) (acts : List FAction) (doc : Body) :
    ∃ E, SimpleFromEventStream.doEmit cfg st acts doc = (st, acts ++ E) ∧
      ∀ a ∈ E, a.isSide = false := by
  unfold SimpleFromEventStream.doEmit
  rcases resolveComps cfg.data_address (Value.dict doc) with v | _ | _
  · exact ⟨[FAction.emitV v], rfl, by simp [FAction.isSide]⟩
  · exact ⟨[], by simp, by simp⟩
  · exact ⟨[FAction.raised], rfl, by simp [FAction.isSide]⟩

lemma emitPhase_decomp (cfg : SimpleFromEventStream.Config)
    (st : SimpleFromEventStream.NState) (acts : List FAction) (name : String)
    (doc : Body) :
    ∃ st2 E, SimpleFromEventStream.emitPhase cfg st acts name doc = (st2, acts ++ E) ∧
      ∀ a ∈ E, a.isSide = false := by
  unfold SimpleFromEventStream.emitPhase
  split
  · split
    · split
      · obtain ⟨E, hE, hS⟩ := doEmit_decomp cfg st acts doc
        exact ⟨st, E, hE, hS⟩
      · exact ⟨st, [], by simp, by simp⟩
    · split
      · split
        · exact ⟨st, [FAction.raised], rfl, by simp [FAction.isSide]⟩
        · split
          · obtain ⟨E, hE, hS⟩ := doEmit_decomp cfg st acts doc
            exact ⟨st, E, hE, hS⟩
          · exact ⟨st, [], by simp, by simp⟩
      · split
        · obtain ⟨E, hE, hS⟩ := doEmit_decomp cfg st acts doc
          exact ⟨st, E, hE, hS⟩
        · exact ⟨st, [], by simp, by simp⟩
  · exact ⟨st, [], by simp, by simp⟩

lemma stopPhase_decomp (cfg : SimpleFromEventStream.Config)
    (st : SimpleFromEventStream.NState) (acts : List FAction) (name : String)
    (doc : Body) :
    ∃ st2 S E, SimpleFromEventStream.stopPhase cfg st acts name doc
        = (st2, (acts ++ S) ++ E) ∧
      (∀ a ∈ S, a.isEmission = false) ∧ ∀ a ∈ E, a.isSide = false := by
  unfold SimpleFromEventStream.stopPhase
  split
  · obtain ⟨st2, E, hE, hS⟩ :=
      emitPhase_decomp cfg { st with descriptor_uids := [] }
        (acts ++ List.replicate cfg.nsubs FAction.sideStop) name doc
    refine ⟨st2, List.replicate cfg.nsubs FAction.sideStop, E, hE, ?_, hS⟩
    intro a ha
    rw [List.eq_of_mem_replicate ha]
    rfl
  · obtain ⟨st2, E, hE, hS⟩ := emitPhase_decomp cfg st acts name doc
    exact ⟨st2, [], E, by simpa using hE, by simp, hS⟩

lemma descPhase_decomp (cfg : SimpleFromEventStream.Config)
    (st : SimpleFromEventStream.NState) (acts : List FAction) (name : String)
    (doc : Body) :
    ∃ st2 S E, SimpleFromEventStream.descPhase cfg st acts name doc
        = (st2, (acts ++ S) ++ E) ∧
      (∀ a ∈ S, a.isEmission = false) ∧ ∀ a ∈ E, a.isSide = false := by
  unfold SimpleFromEventStream.descPhase
  split
  · split
    · exact ⟨st, [FAction.raised], [], by simp, by simp [FAction.isEmission], by simp⟩
    · exact stopPhase_decomp cfg _ acts name doc
  · exact stopPhase_decomp cfg st acts name doc

lemma update_decomp (cfg : SimpleFromEventStream.Config)
    (st : SimpleFromEventStream.NState) (x : String × Body) :
    ∃ st2 S E, SimpleFromEventStream.update cfg st x = (st2, S ++ E) ∧
      (∀ a ∈ S, a.isEmission = false) ∧ ∀ a ∈ E, a.isSide = false := by
  unfold SimpleFromEventStream.update
  split
  · split
    · exact ⟨st, [FAction.raised], [], by simp, by simp [FAction.isEmission], by simp⟩
    · obtain ⟨st2, S, E, hE, hS1, hS2⟩ :=
        descPhase_decomp cfg _ (List.replicate cfg.nsubs FAction.sideStart) x.1 x.2
      refine ⟨st2, List.replicate cfg.nsubs FAction.sideStart ++ S, E, by simpa using hE,
        ?_, hS2⟩
      intro a ha
      rcases List.mem_append.1 ha with h | h
      · rw [List.eq_of_mem_replicate h]; rfl
      · exact hS1 a h
  · obtain ⟨st2, S, E, hE, hS1, hS2⟩ := descPhase_decomp cfg st [] x.1 x.2
    exact ⟨st2, S, E, by simpa using hE, hS1, hS2⟩

lemma side_first_index (S E : List FAction) (hS : ∀ a ∈ S, a.isEmission = false)
    (hE : ∀ a ∈ E, a.isSide = false) (i j : Nat) (hi : i < (S ++ E).length)
    (hj : j < (S ++ E).length) (hside : ((S ++ E).get ⟨i, hi⟩).isSide = true)
    (hemit : ((S ++ E).get ⟨j, hj⟩).isEmission = true) : i < j := by
  simp only [List.get_eq_getElem] at hside hemit
  have hlen : (S ++ E).length = S.length + E.length := List.length_append S E
  rcases Nat.lt_or_ge i S.length with hiS | hiS
  · rcases Nat.lt_or_ge j S.length with hjS | hjS
    · exfalso
      have h1 : (S ++ E)[j] = S[j] := List.getElem_append_left hjS
      rw [h1] at hemit
      have h2 := hS _ (List.getElem_mem hjS)
      rw [h2] at hemit
      exact Bool.false_ne_true hemit
    · omega
  · exfalso
    have hb : i - S.length < E.length := by omega
    have h1 : (S ++ E)[i] = E[i - S.length] := List.getElem_append_right hiS
    rw [h1] at hside
    have h2 := hE _ (List.getElem_mem hb)
    rw [h2] at hside
    exact Bool.false_ne_true hside

/-- Claim C9: within one `update` call of an extraction node, every sideband
notification to its registered dependents (`emit_start` on a start document,
`emit_stop` on a stop document) occurs in the action trace strictly before
the node's own downstream emission of the value resolved from the same
document. -/
theorem C9_sideband_before_emission (cfg : SimpleFromEventStream.Config)
    (st : SimpleFromEventStream.NState) (x : String × Body) (i j : Nat)
    (hi : i < ((SimpleFromEventStream.update cfg st x).2).length)
    (hj : j < ((SimpleFromEventStream.update cfg st x).2).length)
    (hside : (((SimpleFromEventStream.update cfg st x).2).get ⟨i, hi⟩).isSide = true)
    (hemit : (((SimpleFromEventStream.update cfg st x).2).get ⟨j, hj⟩).isEmission = true) :
    i < j := by
  obtain ⟨st2, S, E, heq, hS, hE⟩ := update_decomp cfg st x
  have hlist : (SimpleFromEventStream.update cfg st x).2 = S ++ E :=
    congrArg Prod.snd heq
  revert hi hj
  rw [hlist]
  intro hi hj hside hemit
  exact side_first_index S E hS hE i j hi hj hside hemit

/-- An extraction node for start documents, whole-body address, with one
registered dependent. -/
def cfgC9 : SimpleFromEventStream.Config :=
  { doc_type := "start", data_address := [], event_stream_name := ALL,
    nsubs := 1 }

/-- A start document. -/
def docC9 : Body := [("uid", Value.str "u")]

/-- Witness for C9: on a start document, the action trace is
`[sideStart, emitV ...]`, and the theorem places the sideband call (index 0)
before the emission (index 1). -/
theorem C9_witness : (0 : Nat) < 1 :=
  C9_sideband_before_emission cfgC9 SimpleFromEventStream.initState
    ("start", docC9) 0 1 (by decide) (by decide) (by decide) (by decide)

/-- An extraction node for events whose address is the single tuple component
`("x", "y")`. -/
def cfgC4 : SimpleFromEventStream.Config :=
  { doc_type := "event", data_address := [AddrComp.tup ["x", "y"]],
    event_stream_name := ALL, nsubs := 0 }

/-- An extraction-node state with one active descriptor `"d"`. -/
def stC4 : SimpleFromEventStream.NState := ⟨[Value.str "d"], none⟩

/-- An event for the active descriptor whose data has key `"x"` but not `"y"`. -/
def docC4 : Body := [("descriptor", Value.str "d"), ("x", Value.nat 1)]

/-- Claim C4, counterexample: for an address containing the tuple component
`("x", "y")` and an event of the configured type whose body lacks the key
`"y"`, the update raises a `KeyError` (the tuple branch indexes the body
unguarded) instead of the claimed silent drop with no error. -/
theorem C4_counterexample :
    (SimpleFromEventStream.update cfgC4 stC4 ("event", docC4)).2
      = [FAction.raised] :=
  rfl

lemma lookupAll_none_iff (d : Body) : ∀ ss : List String,
    lookupAll d ss = none ↔ ∃ k ∈ ss, lookupV d k = none := by
  intro ss
  induction ss with
  | nil => simp [lookupAll]
  | cons k ks ih =>
    rcases h : lookupV d k with _ | v
    · simp only [lookupAll, h]
      constructor
      · intro _
        exact ⟨k, by simp, h⟩
      · intro _
        trivial
    · rcases h2 : lookupAll d ks with _ | vs
      · simp only [lookupAll, h, h2]
        constructor
        · intro _
          obtain ⟨k2, hk2, hnone⟩ := ih.1 h2
          exact ⟨k2, by simp [hk2], hnone⟩
        · intro _
          trivial
      · simp only [lookupAll, h, h2]
        constructor
        · intro hcon
          exact absurd hcon (by simp)
        · rintro ⟨k2, hk2, hnone⟩
          rcases List.mem_cons.1 hk2 with rfl | hk2
          · rw [h] at hnone
            exact absurd hnone (by simp)
          · have : lookupAll d ks = none := ih.2 ⟨k2, hk2, hnone⟩
            rw [h2] at this
            exact absurd this (by simp)

/-- Claim C4 (amended): in `SimpleFromEventStream.update`'s address
resolution, a key missing at a bare (non-tuple) component of the address
yields a silent drop (nothing emitted, no error); a key missing inside a
tuple component raises a `KeyError` (nothing emitted); and when the address
resolves fully, the resolved value is emitted. -/
theorem C4_address_resolution (cfg : SimpleFromEventStream.Config)
    (st : SimpleFromEventStream.NState) (acts : List FAction) (doc d : Body)
    (s : String) (ss : List String) (rest : List AddrComp) :
    (lookupV d s = none →
      resolveComps (AddrComp.single s :: rest) (Value.dict d) = RRes.dropR) ∧
    ((∃ k ∈ ss, lookupV d k = none) →
      resolveComps (AddrComp.tup ss :: rest) (Value.dict d) = RRes.exnR) ∧
    (∀ v, resolveComps cfg.data_address (Value.dict doc) = RRes.emitR v →
      SimpleFromEventStream.doEmit cfg st acts doc = (st, acts ++ [FAction.emitV v])) ∧
    (resolveComps cfg.data_address (Value.dict doc) = RRes.dropR →
      SimpleFromEventStream.doEmit cfg st acts doc = (st, acts)) ∧
    (resolveComps cfg.data_address (Value.dict doc) = RRes.exnR →
      SimpleFromEventStream.doEmit cfg st acts doc = (st, acts ++ [FAction.raised])) := by
  refine ⟨?_, ?_, ?_, ?_, ?_⟩
  · intro h
    simp [resolveComps, h]
  · intro h
    have h2 : lookupAll d ss = none := (lookupAll_none_iff d ss).2 h
    simp [resolveComps, h2]
  · intro v h
    simp [SimpleFromEventStream.doEmit, h]
  · intro h
    simp [SimpleFromEventStream.doEmit, h]
  · intro h
    simp [SimpleFromEventStream.doEmit, h]

/-- Witness for C4 (amended) at concrete inputs: a missing bare key drops
silently, a missing key inside a tuple component raises. -/
theorem C4_witness :
    resolveComps [AddrComp.single "k"] (Value.dict []) = RRes.dropR ∧
    resolveComps [AddrComp.tup ["k"]] (Value.dict []) = RRes.exnR :=
  ⟨(C4_address_resolution cfgC4 stC4 [] [] [] "k" ["k"] []).1 rfl,
   (C4_address_resolution cfgC4 stC4 [] [] [] "k" ["k"] []).2.1 ⟨"k", by simp, rfl⟩⟩

/-- A boundary (translation) node as seen by `SimpleToEventStream.start_doc`:
its generated identity `uid` and its current session id `start_uid` (set on
the node's last seen start document, `none` before any). -/
structure TransNode where
  uid : String
  start_uid : Option String
deriving DecidableEq

/-- The `parent_uids` field of an emitted start body
(`SimpleToEventStream.start_doc`, lines 305-309): the `start_uid` of every
translation node whose `start_uid` is not `None`. -/
def parent_uids (ts : List TransNode) : List String :=
  ts.filterMap (fun v => v.start_uid)

/-- The `parent_node_map` field of an emitted start body
(`SimpleToEventStream.start_doc`, lines 310-314): each translation node's
`uid` mapped to its `start_uid`, for nodes whose `start_uid` is not `None`. -/
def parent_node_map (ts : List TransNode) : List (String × String) :=
  ts.filterMap (fun v => v.start_uid.map (fun s => (v.uid, s)))

/-- The provenance fields added to the start body built by
`SimpleToEventStream.start_doc` on top of the schema generator's base body. -/
def start_doc (base : Body) (ts : List TransNode) : Body :=
  base ++
    [("parent_uids", Value.tup ((parent_uids ts).map Value.str)),
     ("parent_node_map",
       Value.dict ((parent_node_map ts).map (fun p => (p.1, Value.str p.2))))]

/-- Claim C5: in an emitted start body, `parent_uids` contains exactly the
current `start_uid`s of the boundary nodes whose `start_uid` is set (nodes
with no session yet contribute nothing), and `parent_node_map` maps exactly
each such node's identity to its `start_uid`. -/
theorem C5_provenance (ts : List TransNode) :
    (∀ u, u ∈ parent_uids ts ↔ ∃ v ∈ ts, v.start_uid = some u) ∧
    (∀ v ∈ ts, ∀ s, v.start_uid = some s →
      s ∈ parent_uids ts ∧ (v.uid, s) ∈ parent_node_map ts) ∧
    (∀ p, p ∈ parent_node_map ts ↔
      ∃ v ∈ ts, v.uid = p.1 ∧ v.start_uid = some p.2) := by
  refine ⟨?_, ?_, ?_⟩
  · intro u
    simp [parent_uids, List.mem_filterMap]
  · intro v hv s hs
    constructor
    · simp only [parent_uids, List.mem_filterMap]
      exact ⟨v, hv, hs⟩
    · simp only [parent_node_map, List.mem_filterMap]
      exact ⟨v, hv, by simp [hs]⟩
  · intro p
    simp only [parent_node_map, List.mem_filterMap]
    constructor
    · rintro ⟨v, hv, hmap⟩
      rcases h : v.start_uid with _ | s
      · rw [h] at hmap
        exact absurd hmap (by simp)
      · rw [h] at hmap
        have hmap2 : (v.uid, s) = p := by simpa using hmap
        refine ⟨v, hv, ?_, ?_⟩
        · rw [← hmap2]
        · rw [h, ← hmap2]
    · rintro ⟨v, hv, huid, hs⟩
      exact ⟨v, hv, by simp [hs, huid, Prod.ext_iff]⟩

/-- Witness for C5 at a concrete pair of boundary nodes, one with a session
and one without. -/
theorem C5_witness :
    "s1" ∈ parent_uids [⟨"n1", some "s1"⟩, ⟨"n2", none⟩] ∧
    ("n1", "s1") ∈ parent_node_map [⟨"n1", some "s1"⟩, ⟨"n2", none⟩] :=
  (C5_provenance [⟨"n1", some "s1"⟩, ⟨"n2", none⟩]).2.1
    ⟨"n1", some "s1"⟩ (by simp) "s1" rfl

lemma lookupV_size (k : String) (b : Body) (w : Value) (h : lookupV b k = some w) :
    sizeOf w < sizeOf b := by
  induction b with
  | nil => simp [lookupV] at h
  | cons kv rest ih =>
    obtain ⟨k2, v2⟩ := kv
    rw [lookupV] at h
    split at h
    · cases h
      simp only [List.cons.sizeOf_spec, Prod.mk.sizeOf_spec]
      omega
    · have := ih h
      simp only [List.cons.sizeOf_spec]
      omega

lemma lookupV_size_le (k : String) (b : Body) : sizeOf (lookupV b k) ≤ sizeOf b := by
  rcases h : lookupV b k with _ | w
  · cases b with
    | nil => simp
    | cons kv rest =>
      simp only [Option.none.sizeOf_spec, List.cons.sizeOf_spec]
      omega
  · have := lookupV_size k b w h
    simp only [Option.some.sizeOf_spec]
    omega

mutual

/-- Modelled from the spec: the deep-merge collaborator (`ChainDB` plus
`_convert_to_dict` from the external `regolith` library, which is not part of
this repository).  Combining an earlier body with a later body merges nested
mappings recursively, a later body's fields override an earlier one's on key
collision, and non-mapping values are replaced outright. -/
def deepMerge : Value → Value → Value
  | Value.dict a, Value.dict b =>
    Value.dict (mergeInto a b ++ b.filter (fun kv => (lookupV a kv.1).isNone))
  | _, b => b
termination_by a b => sizeOf a + sizeOf b
decreasing_by
  simp only [Value.dict.sizeOf_spec]
  omega

/-- Modelled from the spec: merge of one earlier entry value with the later
value found (or not) under the same key. -/
def mergeEntry (v : Value) : Option Value → Value
  | some w => deepMerge v w
  | none => v
termination_by o => sizeOf v + sizeOf o
decreasing_by
  simp only [Option.some.sizeOf_spec]
  omega

/-- Modelled from the spec: entrywise merge of the earlier dict `a` into the
later dict `b`; an entry of `a` whose key also occurs in `b` is replaced by
the deep merge of the two values. -/
def mergeInto : List (String × Value) → List (String × Value) → List (String × Value)
  | [], _ => []
  | (k, v) :: rest, b =>
    (k, mergeEntry v (lookupV b k)) :: mergeInto rest b
termination_by a b => sizeOf a + sizeOf b
decreasing_by
  · have hs := lookupV_size_le k b
    simp only [List.cons.sizeOf_spec, Prod.mk.sizeOf_spec]
    omega
  · simp only [List.cons.sizeOf_spec, Prod.mk.sizeOf_spec]
    omega

end

namespace AlignEventStreams

/-- `AlignEventStreams._emit` (lines 347-352): given the popped
`(name, body)` pairs in upstream declaration order, emit one combined
document whose type is the first element's name and whose body is the
left-to-right deep merge of all the popped bodies
(`_convert_to_dict(ChainDB(*docs))`, later bodies overriding earlier ones);
`none` when there is nothing to pop. -/
def emitCombined (x : List (String × Value)) : Option (String × Value) :=
  match x with
  | [] => none
  | (n, d) :: rest => some (n, rest.foldl (fun acc p => deepMerge acc p.2) d)

end AlignEventStreams

/-- The body `{x: 1, y: 2}` of the spec's merge example. -/
def bodyA : Value := Value.dict [("x", Value.nat 1), ("y", Value.nat 2)]

/-- The body `{y: 3, z: 4}` of the spec's merge example. -/
def bodyB : Value := Value.dict [("y", Value.nat 3), ("z", Value.nat 4)]

/-- Claim C6: an Alignment/Merge emission carries the first popped element's
name as its document type and the left-to-right deep merge of all popped
bodies (in upstream declaration order, later overriding earlier) as its body;
in particular merging `{x:1, y:2}` with `{y:3, z:4}` yields
`{x:1, y:3, z:4}`. -/
theorem C6_merge_emission :
    (∀ (n : String) (d : Value) (rest : List (String × Value)),
      AlignEventStreams.emitCombined ((n, d) :: rest)
        = some (n, rest.foldl (fun acc p => deepMerge acc p.2) d)) ∧
    AlignEventStreams.emitCombined [("event", bodyA), ("event", bodyB)]
      = some ("event",
          Value.dict [("x", Value.nat 1), ("y", Value.nat 3), ("z", Value.nat 4)]) := by
  constructor
  · intro n d rest
    rfl
  · have h : deepMerge bodyA bodyB
        = Value.dict [("x", Value.nat 1), ("y", Value.nat 3), ("z", Value.nat 4)] := by
      simp [bodyA, bodyB, deepMerge, mergeInto, mergeEntry, lookupV, List.filter]
    simp [AlignEventStreams.emitCombined, h]

/-- Kind of a dataflow node as tested by `walk_to_translation`'s
`isinstance` checks. -/
inductive NodeKind where
  | fromES
  | toES
  | other
deriving DecidableEq

/-- The live dataflow graph: a finite set of node identities
(`_hash_or_uid`), and per identity its kind, its `principle` flag
(`getattr(node, "principle", False)`), and its upstream and downstream
lists. -/
structure DFGraph where
  ids : Finset Nat
  kind : Nat → NodeKind
  principle : Nat → Bool
  upstreams : Nat → List Nat
  downstreams : Nat → List Nat

/-- Well-formedness of the dataflow graph: upstream and downstream
references stay inside the graph. -/
def DFGraph.wf (df : DFGraph) : Prop :=
  ∀ n ∈ df.ids,
    (∀ u ∈ df.upstreams n, u ∈ df.ids) ∧ ∀ d ∈ df.downstreams n, d ∈ df.ids

/-- The dependency graph built by the walk (a `networkx.DiGraph`). -/
structure DepGraph where
  nodes : Finset Nat
  edges : Finset (Nat × Nat)
deriving DecidableEq

/-- `networkx.DiGraph.add_edge`: inserts the edge and both endpoints. -/
def DepGraph.addEdge (g : DepGraph) (a b : Nat) : DepGraph :=
  { nodes := insert a (insert b g.nodes), edges := insert (a, b) g.edges }

/-- The downstream scan of `walk_to_translation` (lines 54-62): the first
downstream that is a `SimpleToEventStream` whose identity is not yet in the
graph. -/
def findDownstream (df : DFGraph) (g : DepGraph) : List Nat → Option Nat
  | [] => none
  | d :: ds =>
    if df.kind d = NodeKind.toES ∧ d ∉ g.nodes then some d
    else findDownstream df g ds

/-- Sequential walk over a node's upstream list (lines 64-67), threading the
graph; `step u g` stands for the recursive `walk_to_translation(u, g, node)`
call. -/
def foldWalk (step : Nat → DepGraph → Option DepGraph) :
    List Nat → DepGraph → Option DepGraph
  | [], g => some g
  | u :: us, g =>
    match step u g with
    | none => none
    | some g2 => foldWalk step us g2

/-- `walk_to_translation(node, graph, prior_node)` (lines 24-67) with
explicit fuel; the recursion consumes one fuel unit per nested call and
returns `none` when the fuel runs out, which `walkFuel_ok` below rules out
for well-formed graphs.  The current node is always recorded
(`graph.add_node`); with a prior node, an already-present edge
short-circuits, otherwise the edge to the prior node is added, an extraction
node ends the branch, a downstream reconstruction node not yet in the graph
is added as a sibling boundary and ends the branch, and otherwise the walk
recurses over the upstream list. -/
def walkFuel (df : DFGraph) : Nat → Nat → DepGraph → Option Nat → Option DepGraph
  | 0, _, _, _ => none
  | fuel + 1, node, g, prior =>
    match prior with
    | none =>
      foldWalk (fun u g3 => walkFuel df fuel u g3 (some node)) (df.upstreams node)
        { nodes := insert node g.nodes, edges := g.edges }
    | some p =>
      if (node, p) ∈ g.edges then
        some { nodes := insert node g.nodes, edges := g.edges }
      else
        if df.kind node = NodeKind.fromES then
          some (DepGraph.addEdge { nodes := insert node g.nodes, edges := g.edges } node p)
        else
          match
            findDownstream df
              (DepGraph.addEdge { nodes := insert node g.nodes, edges := g.edges } node p)
              (df.downstreams node) with
          | some d =>
            some (DepGraph.addEdge
              (DepGraph.addEdge { nodes := insert node g.nodes, edges := g.edges } node p)
              node d)
          | none =>
            foldWalk (fun u g3 => walkFuel df fuel u g3 (some node)) (df.upstreams node)
              (DepGraph.addEdge { nodes := insert node g.nodes, edges := g.edges } node p)

/-- All edges over the dataflow graph's identities; the walk can only ever
add edges from this finite set. -/
def allE (df : DFGraph) : Finset (Nat × Nat) := df.ids ×ˢ df.ids

lemma walkFuel_succ_edge_mem (df : DFGraph) (f n : Nat) (g : DepGraph) (p : Nat)
    (h : (n, p) ∈ g.edges) :
    walkFuel df (f + 1) n g (some p)
      = some { nodes := insert n g.nodes, edges := g.edges } := by
  simp [walkFuel, h]

lemma walkFuel_succ_fromES (df : DFGraph) (f n : Nat) (g : DepGraph) (p : Nat)
    (h : (n, p) ∉ g.edges) (hk : df.kind n = NodeKind.fromES) :
    walkFuel df (f + 1) n g (some p)
      = some (DepGraph.addEdge { nodes := insert n g.nodes, edges := g.edges } n p) := by
  simp [walkFuel, h, hk]

lemma walkFuel_succ_down (df : DFGraph) (f n : Nat) (g : DepGraph) (p d : Nat)
    (h : (n, p) ∉ g.edges) (hk : ¬ df.kind n = NodeKind.fromES)
    (hfd : findDownstream df
        (DepGraph.addEdge { nodes := insert n g.nodes, edges := g.edges } n p)
        (df.downstreams n) = some d) :
    walkFuel df (f + 1) n g (some p)
      = some (DepGraph.addEdge
          (DepGraph.addEdge { nodes := insert n g.nodes, edges := g.edges } n p) n d) := by
  simp [walkFuel, h, hk, hfd]

lemma walkFuel_succ_ups (df : DFGraph) (f n : Nat) (g : DepGraph) (p : Nat)
    (h : (n, p) ∉ g.edges) (hk : ¬ df.kind n = NodeKind.fromES)
    (hfd : findDownstream df
        (DepGraph.addEdge { nodes := insert n g.nodes, edges := g.edges } n p)
        (df.downstreams n) = none) :
    walkFuel df (f + 1) n g (some p)
      = foldWalk (fun u g3 => walkFuel df f u g3 (some n)) (df.upstreams n)
          (DepGraph.addEdge { nodes := insert n g.nodes, edges := g.edges } n p) := by
  simp [walkFuel, h, hk, hfd]

lemma walkFuel_succ_root (df : DFGraph) (f n : Nat) (g : DepGraph) :
    walkFuel df (f + 1) n g none
      = foldWalk (fun u g3 => walkFuel df f u g3 (some n)) (df.upstreams n)
          { nodes := insert n g.nodes, edges := g.edges } := by
  simp [walkFuel]

lemma findDownstream_mem (df : DFGraph) (g : DepGraph) :
    ∀ (l : List Nat) (d : Nat), findDownstream df g l = some d → d ∈ l := by
  intro l
  induction l with
  | nil => intro d h; simp [findDownstream] at h
  | cons a rest ih =>
    intro d h
    rw [findDownstream] at h
    split at h
    · cases h
      exact List.mem_cons_self a rest
    · exact List.mem_cons_of_mem _ (ih d h)

lemma foldWalk_ok (step : Nat → DepGraph → Option DepGraph) (E : Finset (Nat × Nat)) :
    ∀ (us : List Nat) (g : DepGraph),
      (∀ u ∈ us, ∀ g1 : DepGraph, g1.edges ⊆ E → g.edges ⊆ g1.edges →
        ∃ g2, step u g1 = some g2 ∧ g1.edges ⊆ g2.edges ∧ g2.edges ⊆ E) →
      g.edges ⊆ E →
      ∃ g3, foldWalk step us g = some g3 ∧ g.edges ⊆ g3.edges ∧ g3.edges ⊆ E := by
  intro us
  induction us with
  | nil =>
    intro g _ hg
    exact ⟨g, rfl, Finset.Subset.refl _, hg⟩
  | cons u us ih =>
    intro g hstep hg
    obtain ⟨g2, h2, hsub2, hE2⟩ := hstep u (by simp) g hg (Finset.Subset.refl _)
    have hstep2 : ∀ u2 ∈ us, ∀ g1 : DepGraph, g1.edges ⊆ E → g2.edges ⊆ g1.edges →
        ∃ g4, step u2 g1 = some g4 ∧ g1.edges ⊆ g4.edges ∧ g4.edges ⊆ E := by
      intro u2 hu2 g1 hg1 hsub1
      exact hstep u2 (by simp [hu2]) g1 hg1 (Finset.Subset.trans hsub2 hsub1)
    obtain ⟨g3, h3, hsub3, hE3⟩ := ih g2 hstep2 hE2
    refine ⟨g3, ?_, Finset.Subset.trans hsub2 hsub3, hE3⟩
    simp only [foldWalk, h2]
    exact h3

lemma walkFuel_ok (df : DFGraph) (hwf : df.wf) : ∀ fuel : Nat, ∀ (node : Nat)
    (g : DepGraph) (p : Nat), node ∈ df.ids → p ∈ df.ids → g.edges ⊆ allE df →
    (allE df).card - g.edges.card + 1 ≤ fuel →
    ∃ g2, walkFuel df fuel node g (some p) = some g2 ∧
      g.edges ⊆ g2.edges ∧ g2.edges ⊆ allE df := by
  intro fuel
  induction fuel with
  | zero =>
    intro node g p _ _ _ hf
    omega
  | succ fuel ih =>
    intro node g p hn hp hE hf
    by_cases hmem : (node, p) ∈ g.edges
    · exact ⟨{ nodes := insert node g.nodes, edges := g.edges },
        walkFuel_succ_edge_mem df fuel node g p hmem, Finset.Subset.refl _, hE⟩
    · have hpair : (node, p) ∈ allE df := by
        simp [allE, Finset.mem_product, hn, hp]
      have hss : g.edges ⊂ allE df :=
        (Finset.ssubset_iff_of_subset hE).2 ⟨(node, p), hpair, hmem⟩
      have hcardlt : g.edges.card < (allE df).card := Finset.card_lt_card hss
      have hg2edges :
          (DepGraph.addEdge { nodes := insert node g.nodes, edges := g.edges } node p).edges
            = insert (node, p) g.edges := rfl
      have hg2sub : g.edges ⊆
          (DepGraph.addEdge { nodes := insert node g.nodes, edges := g.edges } node p).edges := by
        rw [hg2edges]
        exact Finset.subset_insert _ _
      have hg2E : (DepGraph.addEdge { nodes := insert node g.nodes, edges := g.edges } node
          p).edges ⊆ allE df := by
        rw [hg2edges]
        exact Finset.insert_subset hpair hE
      have hg2card : (DepGraph.addEdge { nodes := insert node g.nodes, edges := g.edges } node
          p).edges.card = g.edges.card + 1 := by
        rw [hg2edges]
        exact Finset.card_insert_of_not_mem hmem
      by_cases hkind : df.kind node = NodeKind.fromES
      · exact ⟨DepGraph.addEdge { nodes := insert node g.nodes, edges := g.edges } node p,
          walkFuel_succ_fromES df fuel node g p hmem hkind, hg2sub, hg2E⟩
      · rcases hfd : findDownstream df
            (DepGraph.addEdge { nodes := insert node g.nodes, edges := g.edges } node p)
            (df.downstreams node) with _ | d
        · have hups := (hwf node hn).1
          have hstep : ∀ u ∈ df.upstreams node, ∀ g1 : DepGraph, g1.edges ⊆ allE df →
              (DepGraph.addEdge { nodes := insert node g.nodes, edges := g.edges } node
                p).edges ⊆ g1.edges →
              ∃ g3, walkFuel df fuel u g1 (some node) = some g3 ∧
                g1.edges ⊆ g3.edges ∧ g3.edges ⊆ allE df := by
            intro u hu g1 hg1E hg1sub
            apply ih u g1 node (hups u hu) hn hg1E
            have hle := Finset.card_le_card hg1sub
            rw [hg2card] at hle
            omega
          obtain ⟨g3, h3, hsub3, hE3⟩ := foldWalk_ok _ (allE df) (df.upstreams node)
            (DepGraph.addEdge { nodes := insert node g.nodes, edges := g.edges } node p)
            hstep hg2E
          refine ⟨g3, ?_, Finset.Subset.trans hg2sub hsub3, hE3⟩
          rw [walkFuel_succ_ups df fuel node g p hmem hkind hfd]
          exact h3
        · refine ⟨DepGraph.addEdge
              (DepGraph.addEdge { nodes := insert node g.nodes, edges := g.edges } node p)
              node d,
            walkFuel_succ_down df fuel node g p d hmem hkind hfd, ?_, ?_⟩
          · exact Finset.Subset.trans hg2sub (Finset.subset_insert _ _)
          · have hd : d ∈ df.ids :=
              (hwf node hn).2 d (findDownstream_mem df _ _ d hfd)
            have hpair2 : (node, d) ∈ allE df := by
              simp [allE, Finset.mem_product, hn, hd]
            exact Finset.insert_subset hpair2 hg2E

/-- `walk_to_translation(self, graph=nx.DiGraph())` as called by
`SimpleToEventStream.__init__`: start from the empty dependency graph at the
reconstruction node itself, with enough fuel for every possible edge. -/
def walk_to_translation (df : DFGraph) (root : Nat) : Option DepGraph :=
  walkFuel df ((allE df).card + 2) root ⟨∅, ∅⟩ none

lemma walk_to_translation_ok (df : DFGraph) (hwf : df.wf) (root : Nat)
    (hr : root ∈ df.ids) : ∃ g, walk_to_translation df root = some g := by
  unfold walk_to_translation
  rw [walkFuel_succ_root]
  have hups := (hwf root hr).1
  have hstep : ∀ u ∈ df.upstreams root, ∀ g1 : DepGraph, g1.edges ⊆ allE df →
      ({ nodes := insert root (∅ : Finset Nat),
          edges := (∅ : Finset (Nat × Nat)) } : DepGraph).edges ⊆ g1.edges →
      ∃ g3, walkFuel df ((allE df).card + 1) u g1 (some root) = some g3 ∧
        g1.edges ⊆ g3.edges ∧ g3.edges ⊆ allE df := by
    intro u hu g1 hg1E _
    apply walkFuel_ok df hwf ((allE df).card + 1) u g1 root (hups u hu) hr hg1E
    omega
  obtain ⟨g3, h3, _, _⟩ := foldWalk_ok _ (allE df) (df.upstreams root)
    { nodes := insert root ∅, edges := ∅ } hstep (by simp)
  exact ⟨g3, h3⟩

/-- Claim C8: `walk_to_translation` terminates on every finite dataflow
graph, cycles included (the walk from the reconstruction node returns a
dependency graph rather than running out of fuel); moreover an already
present edge between the current and prior identities stops recursion on
that edge (the call returns after only recording the current node), and an
extraction node ends its branch (the call returns after recording the node
and the one new edge). -/
theorem C8_walk_terminates :
    (∀ (df : DFGraph) (root : Nat), df.wf → root ∈ df.ids →
      (walk_to_translation df root).isSome = true) ∧
    (∀ (df : DFGraph) (f n : Nat) (g : DepGraph) (p : Nat), (n, p) ∈ g.edges →
      walkFuel df (f + 1) n g (some p)
        = some { nodes := insert n g.nodes, edges := g.edges }) ∧
    (∀ (df : DFGraph) (f n : Nat) (g : DepGraph) (p : Nat), (n, p) ∉ g.edges →
      df.kind n = NodeKind.fromES →
      walkFuel df (f + 1) n g (some p)
        = some (DepGraph.addEdge { nodes := insert n g.nodes, edges := g.edges } n p)) := by
  refine ⟨?_, ?_, ?_⟩
  · intro df root hwf hr
    obtain ⟨g, hg⟩ := walk_to_translation_ok df hwf root hr
    simp [hg]
  · intro df f n g p h
    exact walkFuel_succ_edge_mem df f n g p h
  · intro df f n g p h hk
    exact walkFuel_succ_fromES df f n g p h hk

/-- A two-node dataflow graph with a cycle (0 and 1 are each other's
upstream and downstream), node 1 an extraction node. -/
def dfC8 : DFGraph :=
  { ids := {0, 1},
    kind := fun n => if n = 1 then NodeKind.fromES else NodeKind.other,
    principle := fun _ => false,
    upstreams := fun n => if n = 0 then [1] else [0],
    downstreams := fun n => if n = 1 then [0] else [1] }

/-- Witness for C8 on the concrete cyclic graph `dfC8`: the walk terminates,
a present edge short-circuits, and an extraction node ends the branch. -/
theorem C8_witness :
    (walk_to_translation dfC8 0).isSome = true ∧
    walkFuel dfC8 1 0 ⟨{0, 1}, {(0, 1)}⟩ (some 1)
      = some { nodes := insert 0 ({0, 1} : Finset Nat),
               edges := ({(0, 1)} : Finset (Nat × Nat)) } ∧
    walkFuel dfC8 1 1 ⟨{0}, ∅⟩ (some 0)
      = some (DepGraph.addEdge
          { nodes := insert 1 ({0} : Finset Nat),
            edges := (∅ : Finset (Nat × Nat)) } 1 0) :=
  ⟨C8_walk_terminates.1 dfC8 0 (by unfold DFGraph.wf; decide) (by decide),
   C8_walk_terminates.2.1 dfC8 0 0 ⟨{0, 1}, {(0, 1)}⟩ 1 (by decide),
   C8_walk_terminates.2.2 dfC8 0 1 ⟨{0}, ∅⟩ 0 (by decide) (by decide)⟩

/-- `self.translation_nodes` (`SimpleToEventStream.__init__`, lines
255-262): nodes of the walked dependency graph that are extraction or
reconstruction nodes, excluding `self`. -/
def translation_nodes (df : DFGraph) (self : Nat) (g : DepGraph) : Finset Nat :=
  g.nodes.filter
    (fun n => (df.kind n = NodeKind.fromES ∨ df.kind n = NodeKind.toES) ∧ n ≠ self)

/-- `self.principle_nodes` (lines 263-268): translation nodes whose
`principle` attribute is true or that are themselves reconstruction nodes. -/
def principle_nodes (df : DFGraph) (tns : Finset Nat) : Finset Nat :=
  tns.filter (fun n => df.principle n = true ∨ df.kind n = NodeKind.toES)

/-- `SimpleToEventStream.__init__` (lines 250-272): walk the dataflow graph
from `self`, collect the translation and principle nodes, raise
`RuntimeError("No Principle Nodes Detected")` when no principle node exists,
and otherwise append `self` to `p.subs` of every principle node `p` — the
returned set is the set of nodes `self` registered with. -/
def SimpleToEventStream_init (df : DFGraph) (self : Nat) : Except String (Finset Nat) :=
  match walk_to_translation df self with
  | none => Except.error "walk out of fuel"
  | some g =>
    if principle_nodes df (translation_nodes df self g) = ∅ then
      Except.error "No Principle Nodes Detected"
    else Except.ok (principle_nodes df (translation_nodes df self g))

/-- Claim C7: construction of a reconstruction node raises the configuration
error exactly when, among the boundary nodes discovered by the walk, none is
marked `principle` and none is itself a reconstruction node; otherwise
construction succeeds and the node registers itself with precisely the
principal boundary nodes. -/
theorem C7_construction_error_iff (df : DFGraph) (self : Nat) (g : DepGraph)
    (hw : walk_to_translation df self = some g) :
    (SimpleToEventStream_init df self = Except.error "No Principle Nodes Detected" ↔
      ∀ n ∈ translation_nodes df self g,
        df.principle n = false ∧ df.kind n ≠ NodeKind.toES) ∧
    (∀ pns, SimpleToEventStream_init df self = Except.ok pns →
      ∀ n, n ∈ pns ↔
        n ∈ translation_nodes df self g ∧
          (df.principle n = true ∨ df.kind n = NodeKind.toES)) := by
  have hinit : SimpleToEventStream_init df self
      = (if principle_nodes df (translation_nodes df self g) = ∅ then
          Except.error "No Principle Nodes Detected"
        else Except.ok (principle_nodes df (translation_nodes df self g))) := by
    simp [SimpleToEventStream_init, hw]
  have hempty_iff : principle_nodes df (translation_nodes df self g) = ∅ ↔
      ∀ n ∈ translation_nodes df self g,
        df.principle n = false ∧ df.kind n ≠ NodeKind.toES := by
    rw [principle_nodes, Finset.filter_eq_empty_iff]
    constructor
    · intro h n hn
      have h2 := h hn
      rw [not_or, Bool.not_eq_true] at h2
      exact h2
    · intro h n hn
      rw [not_or, Bool.not_eq_true]
      exact h n hn
  constructor
  · rw [hinit]
    constructor
    · intro h
      rw [← hempty_iff]
      by_contra hne
      rw [if_neg hne] at h
      exact Except.noConfusion h
    · intro h
      rw [if_pos (hempty_iff.2 h)]
  · intro pns hok
    rw [hinit] at hok
    by_cases hE : principle_nodes df (translation_nodes df self g) = ∅
    · rw [if_pos hE] at hok
      exact Except.noConfusion hok
    · rw [if_neg hE] at hok
      injection hok with hok2
      subst hok2
      intro n
      rw [principle_nodes, Finset.mem_filter]

/-- A dataflow graph where the reconstruction node 0 has a single upstream
extraction node 1 that is not marked `principle`. -/
def dfC7 : DFGraph :=
  { ids := {0, 1},
    kind := fun n => if n = 0 then NodeKind.toES else NodeKind.fromES,
    principle := fun _ => false,
    upstreams := fun n => if n = 0 then [1] else [],
    downstreams := fun n => if n = 1 then [0] else [] }

/-- Witness for C7: on `dfC7` (whose only boundary node is an extraction node
not marked `principle`), construction raises the configuration error. -/
theorem C7_witness :
    SimpleToEventStream_init dfC7 0 = Except.error "No Principle Nodes Detected" := by
  obtain ⟨g, hg⟩ := walk_to_translation_ok dfC7 (by unfold DFGraph.wf; decide) 0 (by decide)
  refine (C7_construction_error_iff dfC7 0 g hg).1.mpr ?_
  intro n hn
  rw [translation_nodes, Finset.mem_filter] at hn
  refine ⟨rfl, ?_⟩
  intro hk
  have hne : n ≠ 0 := hn.2.2
  have hfrom : dfC7.kind n = NodeKind.fromES := by
    simp [dfC7, hne]
  rw [hfrom] at hk
  exact NodeKind.noConfusion hk
